import Mathlib

/-!
# Verification of the basic-chat room server

A shallow embedding of the chat server's core logic:

* `src/server.js` (Redis + admin variant): the message store (Redis path and
  in-memory fallback path), the `chat message` dispatcher with admin login,
  admin commands, mute handling and the plain-message path, and the
  `join room` / `leave room` / `connection` / `disconnect` presence handlers.
* `src/unnamed/part_000` (keep-alive variant): the in-memory message store and
  the `handleServerCommand` power/status/help interpreter with the
  keep-alive flag and timer.

JavaScript strings are modelled as `List Char`, JS `Map`s as association
lists in insertion order, JS `Set`s as duplicate-free lists in insertion
order.  All clock reads inside one handler invocation observe the same
instant `now` (the JS code calls `Date.now()` / `new Date()` back to back
within one synchronous handler step).
-/

set_option maxRecDepth 100000

namespace BasicChat

/-- JS strings, modelled as lists of characters. -/
abbrev Str := List Char

abbrev SocketId := Nat

/-! ## String operations used by the server -/

/-- `m.startsWith(p)` on JS strings. -/
def strStartsWith : Str → Str → Bool
  | _, [] => true
  | [], _ :: _ => false
  | a :: as, b :: bs => a == b && strStartsWith as bs

/-- `s.split(sep)` for a one-character separator, JS semantics:
`"a#b#".split("#") = ["a","b",""]` and `"".split("#") = [""]`. -/
def splitOnChar (sep : Char) : Str → List Str
  | [] => [[]]
  | c :: cs =>
    match splitOnChar sep cs with
    | [] => [[c]]
    | r :: rs => if c == sep then [] :: r :: rs else (c :: r) :: rs

/-- `s.toLowerCase()`. -/
def toLowerStr (s : Str) : Str := s.map Char.toLower

/-- JS `a || b` on strings: the empty string is falsy. -/
def jsOr (a b : Str) : Str := if a.isEmpty then b else a

/-- `parseInt` on an all-digit string. -/
def parseDigits (s : Str) : Nat :=
  s.foldl (fun a c => a * 10 + (c.toNat - '0'.toNat)) 0

/-- `/^\d{3}$/.test(s)`. -/
def isThreeDigits (s : Str) : Bool := s.length == 3 && s.all Char.isDigit

/-- `n.toString().padStart(3, '0')`. -/
def formatRoom (n : Nat) : Str :=
  let s := Nat.toDigits 10 n
  List.replicate (3 - s.length) '0' ++ s

/-! ## JS `Map` as an association list (insertion order, unique keys) -/

/-- `map.get(k)` (first matching key). -/
def alistGet [BEq κ] (k : κ) : List (κ × α) → Option α
  | [] => none
  | (k', v) :: rest => if k' == k then some v else alistGet k rest

/-- `map.set(k, v)`: update in place if present, else append. -/
def alistSet [BEq κ] (k : κ) (v : α) : List (κ × α) → List (κ × α)
  | [] => [(k, v)]
  | (k', v') :: rest =>
    if k' == k then (k, v) :: rest else (k', v') :: alistSet k v rest

/-- `map.delete(k)`. -/
def alistRemove [BEq κ] (k : κ) (l : List (κ × α)) : List (κ × α) :=
  l.filter (fun p => !(p.1 == k))

/-- `set.add(x)` on a JS `Set` modelled as an insertion-ordered list. -/
def setAdd [DecidableEq α] (x : α) (l : List α) : List α :=
  if x ∈ l then l else l ++ [x]

/-! ## Message store: shared message shape -/

/-- The 6-hour message TTL, in milliseconds. -/
def msgTTLms : Nat := 6 * 60 * 60 * 1000

/-- Extra hour added to the Redis room-list expiry (`6 * 60 * 60 + 3600` s). -/
def listTTLms : Nat := msgTTLms + 3600 * 1000

/-- A stored chat message as returned by `getRecentMessages`:
`{username, message, timestamp, room}`.  The `timestamp` field and the
store-time used for expiry are produced by the same clock read, so a single
`timestamp` field models both. -/
structure StoredMsg where
  username : Str
  message : Str
  timestamp : Nat
  room : Str
deriving DecidableEq, Repr

/-! ## Redis-backed message store (`src/server.js`, success path)

One Redis list per room holding per-message keys, newest first (`lPush`),
trimmed to 200 (`lTrim 0 199`); every message key carries its own 6-hour
expiry (`setEx`), and the room list's expiry is refreshed to TTL + 1 hour on
every append.  A `get` on an expired key returns nil, so expired entries are
invisible to reads. -/

structure RedisRoom where
  /-- Message entries reachable from the room list, newest first. -/
  entries : List StoredMsg
  /-- Absolute expiry instant of the room list itself. -/
  expireAt : Nat
deriving DecidableEq, Repr

/-- `storeMessage` (Redis path): build the message, `lPush` its key,
`lTrim` to the newest 200 keys, refresh the list expiry. -/
def storeMessageRedis (now : Nat) (roomId username message : Str)
    (store : List (Str × RedisRoom)) : List (Str × RedisRoom) :=
  let entry : StoredMsg := ⟨username, message, now, roomId⟩
  let old :=
    match alistGet roomId store with
    | some rr => if now < rr.expireAt then rr.entries else []
    | none => []
  alistSet roomId ⟨(entry :: old).take 200, now + listTTLms⟩ store

/-- Stable insertion (ties go after existing elements) for a descending
sort by timestamp; models one step of JS's stable
`sort((a, b) => b.timestamp - a.timestamp)`. -/
def insertByTsDesc (m : StoredMsg) : List StoredMsg → List StoredMsg
  | [] => [m]
  | x :: xs =>
    if x.timestamp < m.timestamp then m :: x :: xs else x :: insertByTsDesc m xs

/-- Stable sort, newest first: JS `messages.sort((a, b) => b.ts - a.ts)`
(ECMAScript sort is stable; any stable sort computes the same list). -/
def sortByTsDesc (l : List StoredMsg) : List StoredMsg :=
  l.foldl (fun acc m => insertByTsDesc m acc) []

/-- JS `arr.slice(-n)`: the last `n` elements. -/
def takeLast (n : Nat) (l : List α) : List α := l.drop (l.length - n)

/-- `getRecentMessages` (Redis path): read the room list (empty once the
list key expired), fetch each message key (expired keys yield nil and are
skipped), sort newest first, reverse to oldest first, and return the last
100 (`slice(-100)`). -/
def getRecentMessagesRedis (now : Nat) (roomId : Str)
    (store : List (Str × RedisRoom)) : List StoredMsg :=
  match alistGet roomId store with
  | none => []
  | some rr =>
    let keys := if now < rr.expireAt then rr.entries else []
    let msgs := keys.filter fun m => now < m.timestamp + msgTTLms
    takeLast 100 (sortByTsDesc msgs).reverse

/-! ## Fallback in-memory store (`src/server.js`, catch path)

`expiresAt` is computed from the same clock read as `timestamp`
(`expiresAt = Date.now() + 6h`), so it is modelled as
`timestamp + msgTTLms`. -/

/-- Fallback `storeMessage`: push at the end, keep only the last 100. -/
def storeMessageFallback (now : Nat) (roomId username message : Str)
    (store : List (Str × List StoredMsg)) : List (Str × List StoredMsg) :=
  let msgs := ((alistGet roomId store).getD []) ++ [⟨username, message, now, roomId⟩]
  let msgs' := if 100 < msgs.length then takeLast 100 msgs else msgs
  alistSet roomId msgs' store

/-- Fallback `getRecentMessages`: drop expired entries, return the last
100 (`slice(-100)`). -/
def getRecentMessagesFallback (now : Nat) (roomId : Str)
    (store : List (Str × List StoredMsg)) : List StoredMsg :=
  match alistGet roomId store with
  | some msgs => takeLast 100 (msgs.filter fun m => now < m.timestamp + msgTTLms)
  | none => []

/-! ## Server state (`src/server.js`) -/

/-- One entry of the `users` map: `{username, room, isAdmin}`. -/
structure User where
  username : Str
  room : Str
  isAdmin : Bool
deriving DecidableEq, Repr

/-- The server's mutable in-memory state: the `rooms`, `users`, `admins`
and `mutedUsers` globals, the Redis-backed message store and the fallback
store. -/
structure ServerState where
  rooms : List (Str × List SocketId)
  users : List (SocketId × User)
  admins : List SocketId
  mutedUsers : List (SocketId × Nat)
  redisStore : List (Str × RedisRoom)
  fallbackStore : List (Str × List StoredMsg)
deriving DecidableEq, Repr

def initState : ServerState := ⟨[], [], [], [], [], []⟩

/-- System-notice payloads emitted by the server; the delivery-relevant
identity of each notice is modelled, the literal text is not inspected by
any claim. -/
inductive Notice
  | loginSuccess
  | loginFailed
  | adminRequired
  | permissionDenied
  | muted (secs : Nat)
  | cleared (byName : Str)
  | muteTargetNotice (byName : Str)
  | muteConfirm (target : Str)
  | kickTargetNotice (byName : Str)
  | kickConfirm (target : Str)
  | banTargetNotice (byName : Str)
  | banConfirm (target : Str)
  | userNotFound (target : Str)
  | usersList (entries : List (Str × Bool))
  | adminHelp
  | unknownCommand (cmd : Str)
deriving DecidableEq, Repr

/-- Observable I/O effects of one handler invocation, in emission order. -/
inductive Effect
  /-- Message Store append (`storeMessage`). -/
  | append (room author body : Str) (ts : Nat)
  /-- `io.to(room).emit("chat message", m)` for a user message. -/
  | broadcast (room : Str) (m : StoredMsg)
  /-- `io.to(room).emit("chat message", systemNotice)`. -/
  | broadcastNotice (room : Str) (n : Notice)
  /-- `socket.emit("chat message", systemNotice)` to the sender. -/
  | privateNotice (sid : SocketId) (n : Notice)
  /-- `io.to(targetSocketId).emit("chat message", systemNotice)`. -/
  | noticeTo (sid : SocketId) (n : Notice)
  /-- `setTimeout(() => disconnect(target), 1000)`. -/
  | scheduleDisconnect (sid : SocketId)
  /-- replay of `getRecentMessages` to one socket. -/
  | history (sid : SocketId) (msgs : List StoredMsg)
  | roomJoined (sid : SocketId) (room : Str)
  | roomLeft (sid : SocketId) (room : Str)
  | userJoined (room : Str) (username : Str)
  | userLeft (room : Str) (username : Str)
  | errorMsg (sid : SocketId)
deriving DecidableEq, Repr

/-- The static `ADMIN_CREDENTIALS` record. -/
def adminCredentials (u : Str) : Option Str :=
  if u == "admin1".data then some "admin123".data
  else if u == "moderator".data then some "mod123".data
  else if u == "superadmin".data then some "super123".data
  else none

/-- `getUserByUsername`: first entry of the `users` map (insertion order)
with a matching display name. -/
def getUserByUsername (name : Str) (users : List (SocketId × User)) :
    Option (SocketId × User) :=
  users.find? (fun p => p.2.username == name)

def loginToken : Str := "server!admin!login#".data
def serverToken : Str := "server!".data

/-- `clearRoomMessages`: delete the room's Redis message keys and list,
and its fallback entry. -/
def clearRoomMessages (roomId : Str) (st : ServerState) : ServerState :=
  { st with redisStore := alistRemove roomId st.redisStore,
            fallbackStore := alistRemove roomId st.fallbackStore }

/-- `handleAdminCommand(socket, message, room)`.  Dispatches on
`command = message.substring(7)` with case-sensitive comparisons. -/
def handleAdminCommand (now : Nat) (sid : SocketId) (room message : Str)
    (st : ServerState) : ServerState × List Effect :=
  match alistGet sid st.users with
  | none => (st, [])
  | some u =>
    if !(st.admins.contains sid) then
      (st, [.privateNotice sid .adminRequired])
    else
      let command := message.drop 7
      if command == "clear".data then
        (clearRoomMessages room st, [.broadcastNotice room (.cleared u.username)])
      else if strStartsWith command "mute ".data then
        let target := command.drop 5
        match getUserByUsername target st.users with
        | some (tsid, _) =>
          ({ st with mutedUsers := alistSet tsid (now + 5 * 60 * 1000) st.mutedUsers },
           [.noticeTo tsid (.muteTargetNotice u.username),
            .privateNotice sid (.muteConfirm target)])
        | none => (st, [.privateNotice sid (.userNotFound target)])
      else if strStartsWith command "kick ".data then
        let target := command.drop 5
        match getUserByUsername target st.users with
        | some (tsid, _) =>
          (st, [.noticeTo tsid (.kickTargetNotice u.username),
                .scheduleDisconnect tsid,
                .privateNotice sid (.kickConfirm target)])
        | none => (st, [.privateNotice sid (.userNotFound target)])
      else if strStartsWith command "ban ".data then
        let target := command.drop 4
        match getUserByUsername target st.users with
        | some (tsid, _) =>
          ({ st with mutedUsers := alistSet tsid (now + 24 * 60 * 60 * 1000) st.mutedUsers },
           [.noticeTo tsid (.banTargetNotice u.username),
            .scheduleDisconnect tsid,
            .privateNotice sid (.banConfirm target)])
        | none => (st, [.privateNotice sid (.userNotFound target)])
      else if command == "list".data then
        let entries := ((alistGet room st.rooms).getD []).filterMap fun s =>
          (alistGet s st.users).map fun uu => (uu.username, st.admins.contains s)
        (st, [.privateNotice sid (.usersList entries)])
      else if command == "help".data then
        (st, [.privateNotice sid .adminHelp])
      else
        (st, [.privateNotice sid (.unknownCommand command)])

/-- The inbound chat-message payload `{room?, username?, message?}`;
absent fields are the empty (falsy) string. -/
structure ChatPayload where
  room : Str
  username : Str
  message : Str
deriving DecidableEq, Repr

/-- The plain-message tail of the `chat message` handler: store the
message (Redis path), build `messageData`, rename the session if the
payload carried a username, then broadcast to the room. -/
def plainMessage (now : Nat) (sid : SocketId) (payload : ChatPayload)
    (u : User) (room message : Str) (st : ServerState) :
    ServerState × List Effect :=
  let author := jsOr payload.username u.username
  let st₁ := { st with redisStore := storeMessageRedis now room author message st.redisStore }
  let st₂ :=
    if payload.username.isEmpty then st₁
    else { st₁ with users := alistSet sid { u with username := payload.username } st₁.users }
  (st₂, [.append room author message now, .broadcast room ⟨author, message, now, room⟩])

/-- The `socket.on("chat message")` handler of `src/server.js`.
Order of checks, as in the source: admin-login prefix (only a
two-field payload is consumed here; otherwise the message falls through),
then the `server!` command gate, then the mute check, then the plain path. -/
def handleChatMessage (now : Nat) (sid : SocketId) (payload : ChatPayload)
    (st : ServerState) : ServerState × List Effect :=
  match alistGet sid st.users with
  | none => (st, [])
  | some u =>
    let room := jsOr payload.room u.room
    let message := payload.message
    if strStartsWith message loginToken
        && (splitOnChar '#' message).length == 2 then
      let parts := splitOnChar '#' message
      let creds := splitOnChar ':' (parts.getD 1 [])
      let username := creds.getD 0 []
      let ok :=
        !username.isEmpty &&
          (match creds[1]? with
           | some pw => !pw.isEmpty && (adminCredentials username == some pw)
           | none => false)
      if ok then
        ({ st with users := alistSet sid { u with isAdmin := true } st.users,
                   admins := setAdd sid st.admins },
         [.privateNotice sid .loginSuccess])
      else
        (st, [.privateNotice sid .loginFailed])
    else if strStartsWith message serverToken then
      if st.admins.contains sid then
        handleAdminCommand now sid room message st
      else
        (st, [.privateNotice sid .permissionDenied])
    else
      match alistGet sid st.mutedUsers with
      | some unmuteTime =>
        if now < unmuteTime then
          (st, [.privateNotice sid (.muted ((unmuteTime - now + 999) / 1000))])
        else
          plainMessage now sid payload u room message
            { st with mutedUsers := alistRemove sid st.mutedUsers }
      | none => plainMessage now sid payload u room message st

/-! ## Presence handlers (`src/server.js`) -/

def guestName : Str := "Guest".data
def defaultRoom : Str := "001".data

/-- Remove `sid` from room `roomId`'s membership set, deleting the set
entirely when it becomes empty; a no-op if the room has no set. -/
def dropFromRoom (sid : SocketId) (roomId : Str)
    (rooms : List (Str × List SocketId)) : List (Str × List SocketId) :=
  match alistGet roomId rooms with
  | some l =>
    if (l.erase sid).isEmpty then alistRemove roomId rooms
    else alistSet roomId (l.erase sid) rooms
  | none => rooms

/-- The `io.on("connection")` prologue: join room 001, register the session
with defaults, replay recent history, confirm the join. -/
def handleConnect (now : Nat) (sid : SocketId) (st : ServerState) :
    ServerState × List Effect :=
  let st₁ :=
    { st with
        rooms := alistSet defaultRoom
          (setAdd sid ((alistGet defaultRoom st.rooms).getD [])) st.rooms,
        users := alistSet sid ⟨guestName, defaultRoom, false⟩ st.users }
  (st₁, [.history sid (getRecentMessagesRedis now defaultRoom st.redisStore),
         .roomJoined sid defaultRoom])

/-- The `socket.on("join room")` handler: validate the id, no-op when the
session is already in the target room, otherwise leave the previous room
(dropping its membership set when empty) and join the new one. -/
def handleJoinRoom (now : Nat) (sid : SocketId) (roomId : Str)
    (st : ServerState) : ServerState × List Effect :=
  if !(isThreeDigits roomId) then (st, [.errorMsg sid])
  else
    let roomNum := parseDigits roomId
    if roomNum < 1 ∨ 100 < roomNum then (st, [.errorMsg sid])
    else
      let formattedRoom := formatRoom roomNum
      let user? := alistGet sid st.users
      if (match user? with
          | some u => u.room == formattedRoom
          | none => false) then (st, [])
      else
        let leftPrev : ServerState × List Effect :=
          match user? with
          | some u =>
            if !u.room.isEmpty then
              ({ st with rooms := dropFromRoom sid u.room st.rooms },
               [.roomLeft sid u.room])
            else (st, [])
          | none => (st, [])
        let st₁ := leftPrev.1
        let st₂ :=
          { st₁ with
              rooms := alistSet formattedRoom
                (setAdd sid ((alistGet formattedRoom st₁.rooms).getD [])) st₁.rooms,
              users :=
                match user? with
                | some u => alistSet sid { u with room := formattedRoom } st₁.users
                | none => alistSet sid ⟨guestName, formattedRoom, false⟩ st₁.users }
        (st₂, leftPrev.2 ++
          [.history sid (getRecentMessagesRedis now formattedRoom st₂.redisStore),
           .roomJoined sid formattedRoom,
           .userJoined formattedRoom
             (match user? with | some u => u.username | none => guestName)])

/-- The `socket.on("leave room")` handler: only acts when `roomId` equals
the session's recorded room; removes the id from the membership set (and
the set itself when empty) but leaves `user.room` untouched. -/
def handleLeaveRoom (sid : SocketId) (roomId : Str) (st : ServerState) :
    ServerState × List Effect :=
  match alistGet sid st.users with
  | some u =>
    if u.room == roomId then
      ({ st with rooms := dropFromRoom sid roomId st.rooms },
       [.roomLeft sid roomId])
    else (st, [])
  | none => (st, [])

/-- The `socket.on("disconnect")` handler: revoke privilege, drop the mute
entry, detach from the room index, and delete the session. -/
def handleDisconnect (sid : SocketId) (st : ServerState) :
    ServerState × List Effect :=
  match alistGet sid st.users with
  | some u =>
    ({ st with admins := st.admins.erase sid,
               mutedUsers := alistRemove sid st.mutedUsers,
               rooms := dropFromRoom sid u.room st.rooms,
               users := alistRemove sid st.users },
     [.userLeft u.room u.username])
  | none => (st, [])

/-! ## Event sequences over the presence handlers -/

/-- Presence-relevant inbound events, each stamped with the instant at
which its handler runs. -/
inductive SEvent
  | connect (now : Nat) (sid : SocketId)
  | joinRoom (now : Nat) (sid : SocketId) (roomId : Str)
  | leaveRoom (sid : SocketId) (roomId : Str)
  | disconnect (sid : SocketId)
deriving DecidableEq, Repr

def stepEvent (e : SEvent) (st : ServerState) : ServerState :=
  match e with
  | .connect now sid => (handleConnect now sid st).1
  | .joinRoom now sid r => (handleJoinRoom now sid r st).1
  | .leaveRoom sid r => (handleLeaveRoom sid r st).1
  | .disconnect sid => (handleDisconnect sid st).1

def runEvents (st : ServerState) : List SEvent → ServerState
  | [] => st
  | e :: es => runEvents (stepEvent e st) es

/-- Well-formed event sequences: a `connect` is only delivered for a
socket id that is not currently connected (socket ids are unique per live
connection). -/
def wfEvents (st : ServerState) : List SEvent → Bool
  | [] => true
  | e :: es =>
    (match e with
     | .connect _ sid => (alistGet sid st.users).isNone
     | _ => true) && wfEvents (stepEvent e st) es

/-! ## Keep-alive variant (`src/unnamed/part_000`)

In-memory `messageStore` plus the keep-alive flag and timer, and the
`handleServerCommand` power/status/help interpreter.  The interpreter
lowercases the whole inbound message (`message.toLowerCase()`) before
comparing it with each fixed command string. -/

/-- One `messageStore` entry; `expiresAt` is computed from the same clock
read as `timestamp` (`Date.now() + 6h`), so it is modelled as
`timestamp + msgTTLms`. -/
structure P0Entry where
  username : Str
  message : Str
  timestamp : Nat
deriving DecidableEq, Repr

def p0ExpiresAt (e : P0Entry) : Nat := e.timestamp + msgTTLms

/-- `storeMessage` of the keep-alive variant: push at the end, then
`splice` so that at most the last 200 entries remain. -/
def p0StoreMessage (now : Nat) (roomId username message : Str)
    (store : List (Str × List P0Entry)) : List (Str × List P0Entry) :=
  let msgs := ((alistGet roomId store).getD []) ++ [⟨username, message, now⟩]
  let msgs' := if 200 < msgs.length then takeLast 200 msgs else msgs
  alistSet roomId msgs' store

/-- `getRecentMessages` of the keep-alive variant: drop expired entries
and re-attach the room id. -/
def p0GetRecentMessages (now : Nat) (roomId : Str)
    (store : List (Str × List P0Entry)) : List StoredMsg :=
  match alistGet roomId store with
  | some msgs =>
    (msgs.filter fun e => now < p0ExpiresAt e).map
      fun e => ⟨e.username, e.message, e.timestamp, roomId⟩
  | none => []

/-- Keep-alive scheduler state plus the variant's message store. -/
structure KAState where
  keepAliveEnabled : Bool
  /-- Whether a keep-alive timer is currently pending (`keepAliveTimer !== null`). -/
  keepAliveTimer : Bool
  messageStore : List (Str × List P0Entry)
deriving DecidableEq, Repr

/-- `startKeepAlive`: a no-op while disabled; otherwise (re)arms the timer. -/
def startKeepAlive (st : KAState) : KAState :=
  if !st.keepAliveEnabled then st else { st with keepAliveTimer := true }

/-- `stopKeepAlive`: cancels any pending timer. -/
def stopKeepAlive (st : KAState) : KAState := { st with keepAliveTimer := false }

inductive P0Notice
  | powerDownBroadcast
  | powerDownPrivate
  | alreadyDisabled
  | powerOnBroadcast
  | powerOnPrivate
  | alreadyEnabled
  | statusNotice (enabled : Bool)
  | helpNotice
deriving DecidableEq, Repr

inductive P0Effect
  /-- `io.to(room).emit("chat message", adminMessage)`. -/
  | broadcast (room : Str) (n : P0Notice)
  /-- `socket.emit("chat message", ...)` to the command sender. -/
  | toSender (n : P0Notice)
deriving DecidableEq, Repr

def powerDownCmd : Str := "server!power!down!".data
def powerOnCmd : Str := "server!power!on".data
def statusCmd : Str := "server!status".data
def helpCmd : Str := "server!help".data

def serverAdminName : Str := "Server Admin".data
def powerDownText : Str :=
  "Keep-alive function DISABLED. Server may shut down due to inactivity to save instance hours.".data
def powerOnText : Str :=
  "Keep-alive function ENABLED. Server will stay active to prevent shutdown.".data

/-- `handleServerCommand(socket, message, user)` of the keep-alive variant.
Returns the new state, the emitted effects, and whether the message was
consumed as a server command. -/
def handleServerCommand (now : Nat) (room message : Str) (st : KAState) :
    KAState × List P0Effect × Bool :=
  if toLowerStr message == powerDownCmd then
    if st.keepAliveEnabled then
      let st₁ := stopKeepAlive { st with keepAliveEnabled := false }
      let st₂ := { st₁ with
        messageStore := p0StoreMessage now room serverAdminName powerDownText st₁.messageStore }
      (st₂, [.broadcast room .powerDownBroadcast, .toSender .powerDownPrivate], true)
    else
      (st, [.toSender .alreadyDisabled], true)
  else if toLowerStr message == powerOnCmd then
    if !st.keepAliveEnabled then
      let st₁ := startKeepAlive { st with keepAliveEnabled := true }
      let st₂ := { st₁ with
        messageStore := p0StoreMessage now room serverAdminName powerOnText st₁.messageStore }
      (st₂, [.broadcast room .powerOnBroadcast, .toSender .powerOnPrivate], true)
    else
      (st, [.toSender .alreadyEnabled], true)
  else if toLowerStr message == statusCmd then
    (st, [.toSender (.statusNotice st.keepAliveEnabled)], true)
  else if toLowerStr message == helpCmd then
    (st, [.toSender .helpNotice], true)
  else
    (st, [], false)

/-- Counts the room broadcasts in a keep-alive effect list. -/
def countBroadcasts (l : List P0Effect) : Nat :=
  (l.filter fun e => match e with | .broadcast _ _ => true | _ => false).length

/-- Counts the private already-disabled notices in a keep-alive effect list. -/
def countAlreadyDisabled (l : List P0Effect) : Nat :=
  (l.filter fun e => match e with | .toSender .alreadyDisabled => true | _ => false).length

/-! ## Association-list and set lemmas -/

theorem alistGet_set_self [BEq κ] [LawfulBEq κ] (k : κ) (v : α)
    (l : List (κ × α)) : alistGet k (alistSet k v l) = some v := by
  induction l with
  | nil => simp [alistGet, alistSet]
  | cons p rest ih =>
    by_cases h : p.1 = k
    · simp [alistSet, alistGet, h]
    · simp only [alistSet, alistGet]
      rw [show (p.1 == k) = false by simpa using h]
      simpa [alistGet, show (p.1 == k) = false by simpa using h] using ih

theorem alistGet_set_ne [BEq κ] [LawfulBEq κ] {k k' : κ} (hne : k' ≠ k)
    (v : α) (l : List (κ × α)) :
    alistGet k' (alistSet k v l) = alistGet k' l := by
  induction l with
  | nil => simp [alistGet, alistSet, show (k == k') = false by simpa using (Ne.symm hne)]
  | cons p rest ih =>
    by_cases h : p.1 = k
    · simp [alistSet, alistGet, h, show (k == k') = false by simpa using (Ne.symm hne),
        show (p.1 == k') = false by simpa [h] using (Ne.symm hne)]
    · simp only [alistSet, alistGet]
      rw [show (p.1 == k) = false by simpa using h]
      by_cases h2 : p.1 = k'
      · simp [alistGet, h2]
      · simp [alistGet, show (p.1 == k') = false by simpa using h2, ih]

theorem alistGet_remove_self [BEq κ] [LawfulBEq κ] (k : κ) (l : List (κ × α)) :
    alistGet k (alistRemove k l) = none := by
  induction l with
  | nil => rfl
  | cons p rest ih =>
    unfold alistRemove at ih ⊢
    by_cases h : p.1 = k
    · rw [List.filter_cons_of_neg (by simp [h])]
      exact ih
    · rw [List.filter_cons_of_pos (by simp [h])]
      simp only [alistGet]
      rw [show (p.1 == k) = false by simpa using h]
      exact ih

theorem alistGet_remove_ne [BEq κ] [LawfulBEq κ] {k k' : κ} (hne : k' ≠ k)
    (l : List (κ × α)) : alistGet k' (alistRemove k l) = alistGet k' l := by
  induction l with
  | nil => rfl
  | cons p rest ih =>
    unfold alistRemove at ih ⊢
    by_cases h : p.1 = k
    · rw [List.filter_cons_of_neg (by simp [h])]
      simp only [alistGet]
      rw [show (p.1 == k') = false by simpa [h] using Ne.symm hne]
      exact ih
    · rw [List.filter_cons_of_pos (by simp [h])]
      by_cases h2 : p.1 = k'
      · simp [alistGet, h2]
      · simp only [alistGet]
        rw [show (p.1 == k') = false by simpa using h2]
        exact ih

theorem mem_setAdd [DecidableEq α] {a x : α} {l : List α} :
    a ∈ setAdd x l ↔ a = x ∨ a ∈ l := by
  by_cases h : x ∈ l
  · simp only [setAdd, if_pos h]
    constructor
    · exact Or.inr
    · rintro (rfl | ha) <;> assumption
  · simp [setAdd, if_neg h, or_comm]

theorem setAdd_ne_nil [DecidableEq α] (x : α) (l : List α) : setAdd x l ≠ [] := by
  intro hnil
  have : x ∈ setAdd x l := mem_setAdd.mpr (Or.inl rfl)
  simp [hnil] at this

theorem nodup_setAdd [DecidableEq α] {x : α} {l : List α} (h : l.Nodup) :
    (setAdd x l).Nodup := by
  by_cases hx : x ∈ l
  · simpa [setAdd, if_pos hx]
  · rw [setAdd, if_neg hx]
    exact List.Nodup.append h (List.nodup_singleton x)
      (fun a ha hb => hx (List.mem_singleton.mp hb ▸ ha))

theorem dropFromRoom_get_ne {r r' : Str} (hne : r' ≠ r) (sid : SocketId)
    (rooms : List (Str × List SocketId)) :
    alistGet r' (dropFromRoom sid r rooms) = alistGet r' rooms := by
  unfold dropFromRoom
  cases h : alistGet r rooms with
  | none => rfl
  | some l =>
    by_cases he : (l.erase sid).isEmpty
    · simp [he, alistGet_remove_ne hne]
    · simp [he, alistGet_set_ne hne]

theorem dropFromRoom_get_self {r : Str} {sid : SocketId}
    {rooms : List (Str × List SocketId)} {l' : List SocketId}
    (h : alistGet r (dropFromRoom sid r rooms) = some l') :
    ∃ l, alistGet r rooms = some l ∧ l' = l.erase sid ∧ l' ≠ [] := by
  unfold dropFromRoom at h
  split at h
  · next l hg =>
      split at h
      · rw [alistGet_remove_self] at h; cases h
      · next he =>
          rw [alistGet_set_self] at h
          have hl : l' = l.erase sid := (Option.some_inj.mp h).symm
          refine ⟨l, hg, hl, ?_⟩
          subst hl
          simpa [List.isEmpty_iff] using he
  · next hg => rw [hg] at h; cases h

/-! ## String-prefix lemmas -/

theorem strStartsWith_of_append {m p q : Str}
    (h : strStartsWith m (p ++ q) = true) : strStartsWith m p = true := by
  induction p generalizing m with
  | nil => cases m <;> rfl
  | cons b bs ih =>
    cases m with
    | nil => simp [strStartsWith] at h
    | cons a as =>
      simp only [List.cons_append, strStartsWith, Bool.and_eq_true] at h ⊢
      exact ⟨h.1, ih h.2⟩

theorem loginToken_eq_append : loginToken = serverToken ++ "admin!login#".data := by
  decide

theorem exists_append_of_strStartsWith {m p : Str}
    (h : strStartsWith m p = true) : ∃ rest, m = p ++ rest := by
  induction p generalizing m with
  | nil => exact ⟨m, rfl⟩
  | cons b bs ih =>
    cases m with
    | nil => simp [strStartsWith] at h
    | cons a as =>
      simp only [strStartsWith, Bool.and_eq_true, beq_iff_eq] at h
      obtain ⟨rfl, h2⟩ := h
      obtain ⟨rest, hrest⟩ := ih h2
      exact ⟨rest, by rw [List.cons_append, hrest]⟩

/-- A message that does not carry the reserved `server!` token cannot carry
the longer admin-login token either. -/
theorem not_login_of_not_server {m : Str}
    (h : strStartsWith m serverToken = false) :
    strStartsWith m loginToken = false := by
  cases hl : strStartsWith m loginToken with
  | false => rfl
  | true =>
    exact absurd (strStartsWith_of_append (loginToken_eq_append ▸ hl)) (by simp [h])

/-! ## Sort and slice lemmas for `getRecentMessages` -/

theorem mem_insertByTsDesc {a m : StoredMsg} {l : List StoredMsg} :
    a ∈ insertByTsDesc m l ↔ a = m ∨ a ∈ l := by
  induction l with
  | nil => simp [insertByTsDesc]
  | cons x xs ih =>
    by_cases h : x.timestamp < m.timestamp
    · simp [insertByTsDesc, h]
    · simp [insertByTsDesc, h, ih]
      tauto

theorem mem_sortByTsDesc {a : StoredMsg} {l : List StoredMsg}
    (h : a ∈ sortByTsDesc l) : a ∈ l := by
  suffices H : ∀ (l acc : List StoredMsg),
      a ∈ l.foldl (fun acc m => insertByTsDesc m acc) acc → a ∈ acc ∨ a ∈ l by
    rcases H l [] h with h' | h'
    · cases h'
    · exact h'
  intro l
  induction l with
  | nil => intro acc h; exact Or.inl h
  | cons x xs ih =>
    intro acc h
    rcases ih (insertByTsDesc x acc) h with h' | h'
    · rcases mem_insertByTsDesc.mp h' with rfl | h''
      · simp
      · exact Or.inl h''
    · simp [h']

theorem mem_takeLast {a : α} {n : Nat} {l : List α} (h : a ∈ takeLast n l) :
    a ∈ l := List.drop_subset _ _ h

theorem length_takeLast (n : Nat) (l : List α) : (takeLast n l).length ≤ n := by
  simp only [takeLast, List.length_drop]
  omega

/-- Every element of a `getRecentMessagesRedis` read passed the per-key
TTL check. -/
theorem fresh_of_mem_getRecentRedis {now : Nat} {roomId : Str}
    {store : List (Str × RedisRoom)} {m : StoredMsg}
    (h : m ∈ getRecentMessagesRedis now roomId store) :
    now < m.timestamp + msgTTLms := by
  unfold getRecentMessagesRedis at h
  cases hg : alistGet roomId store with
  | none => rw [hg] at h; cases h
  | some rr =>
    rw [hg] at h
    have h1 := mem_takeLast h
    rw [List.mem_reverse] at h1
    have h2 := mem_sortByTsDesc h1
    have := List.of_mem_filter h2
    simpa using this

theorem sorted_insertByTsDesc {m : StoredMsg} {l : List StoredMsg}
    (h : l.Pairwise (fun a b => b.timestamp ≤ a.timestamp)) :
    (insertByTsDesc m l).Pairwise (fun a b => b.timestamp ≤ a.timestamp) := by
  induction l with
  | nil => simp [insertByTsDesc]
  | cons x xs ih =>
    rcases List.pairwise_cons.mp h with ⟨hx, hxs⟩
    by_cases hlt : x.timestamp < m.timestamp
    · simp only [insertByTsDesc, if_pos hlt]
      refine List.pairwise_cons.mpr ⟨?_, h⟩
      intro b hb
      rcases hb with _ | hb
      · omega
      · have := hx b (by assumption)
        omega
    · simp only [insertByTsDesc, if_neg hlt]
      refine List.pairwise_cons.mpr ⟨?_, ih hxs⟩
      intro b hb
      rcases mem_insertByTsDesc.mp hb with rfl | hb'
      · omega
      · exact hx b hb'

theorem sorted_sortByTsDesc (l : List StoredMsg) :
    (sortByTsDesc l).Pairwise (fun a b => b.timestamp ≤ a.timestamp) := by
  suffices H : ∀ (l acc : List StoredMsg),
      acc.Pairwise (fun a b => b.timestamp ≤ a.timestamp) →
      (l.foldl (fun acc m => insertByTsDesc m acc) acc).Pairwise
        (fun a b => b.timestamp ≤ a.timestamp) by
    exact H l [] (by simp)
  intro l
  induction l with
  | nil => intro acc h; exact h
  | cons x xs ih => intro acc h; exact ih _ (sorted_insertByTsDesc h)

/-- `getRecentMessagesRedis` output is ordered oldest first. -/
theorem sorted_getRecentRedis (now : Nat) (roomId : Str)
    (store : List (Str × RedisRoom)) :
    (getRecentMessagesRedis now roomId store).Pairwise
      (fun a b => a.timestamp ≤ b.timestamp) := by
  unfold getRecentMessagesRedis
  cases alistGet roomId store with
  | none => simp
  | some rr =>
    refine List.Pairwise.sublist (List.drop_sublist _ _) ?_
    exact (List.pairwise_reverse).mpr (sorted_sortByTsDesc _)

theorem length_getRecentRedis (now : Nat) (roomId : Str)
    (store : List (Str × RedisRoom)) :
    (getRecentMessagesRedis now roomId store).length ≤ 100 := by
  unfold getRecentMessagesRedis
  cases alistGet roomId store with
  | none => simp
  | some rr => exact length_takeLast _ _

theorem fresh_of_mem_getRecentFallback {now : Nat} {roomId : Str}
    {store : List (Str × List StoredMsg)} {m : StoredMsg}
    (h : m ∈ getRecentMessagesFallback now roomId store) :
    now < m.timestamp + msgTTLms := by
  unfold getRecentMessagesFallback at h
  cases hg : alistGet roomId store with
  | none => rw [hg] at h; cases h
  | some msgs =>
    rw [hg] at h
    simpa using List.of_mem_filter (mem_takeLast h)

theorem fresh_of_mem_p0GetRecent {now : Nat} {roomId : Str}
    {store : List (Str × List P0Entry)} {m : StoredMsg}
    (h : m ∈ p0GetRecentMessages now roomId store) :
    now < m.timestamp + msgTTLms := by
  unfold p0GetRecentMessages at h
  cases hg : alistGet roomId store with
  | none => rw [hg] at h; cases h
  | some msgs =>
    rw [hg] at h
    rcases List.mem_map.mp h with ⟨e, he, rfl⟩
    simpa [p0ExpiresAt] using List.of_mem_filter he

/-! ## Claim C7 -/

/-- C7: for every room, time and store state, `recent(room)` never includes
an entry whose age exceeds the 6-hour TTL — on the Redis read path, the
fallback read path, and the keep-alive variant's read path alike —
independently of whether the hourly sweep has run (no sweep is modelled;
reads filter expired entries themselves). -/
theorem c7_recent_respects_ttl :
    (∀ (now : Nat) (roomId : Str) (store : List (Str × RedisRoom)) (m : StoredMsg),
        m ∈ getRecentMessagesRedis now roomId store → now < m.timestamp + msgTTLms) ∧
    (∀ (now : Nat) (roomId : Str) (store : List (Str × List StoredMsg)) (m : StoredMsg),
        m ∈ getRecentMessagesFallback now roomId store → now < m.timestamp + msgTTLms) ∧
    (∀ (now : Nat) (roomId : Str) (store : List (Str × List P0Entry)) (m : StoredMsg),
        m ∈ p0GetRecentMessages now roomId store → now < m.timestamp + msgTTLms) :=
  ⟨fun _ _ _ _ h => fresh_of_mem_getRecentRedis h,
   fun _ _ _ _ h => fresh_of_mem_getRecentFallback h,
   fun _ _ _ _ h => fresh_of_mem_p0GetRecent h⟩

theorem c7_recent_respects_ttl_witness :
    ((⟨"ann".data, "hi".data, 5, defaultRoom⟩ : StoredMsg) ∈
        getRecentMessagesRedis 10 defaultRoom
          [(defaultRoom, ⟨[⟨"ann".data, "hi".data, 5, defaultRoom⟩], 5 + listTTLms⟩)]) ∧
    10 < 5 + msgTTLms :=
  ⟨by decide,
   c7_recent_respects_ttl.1 10 defaultRoom
     [(defaultRoom, ⟨[⟨"ann".data, "hi".data, 5, defaultRoom⟩], 5 + listTTLms⟩)]
     ⟨"ann".data, "hi".data, 5, defaultRoom⟩ (by decide)⟩

/-! ## Claim C2 -/

/-- 200 pre-existing entries for room 001, newest first
(timestamps 199 down to 0), mirroring a Redis list after 200 appends. -/
def c2Entries : List StoredMsg :=
  (List.range 200).map fun i => ⟨"u".data, "m".data, 199 - i, defaultRoom⟩

def c2Store : List (Str × RedisRoom) := [(defaultRoom, ⟨c2Entries, 200 + listTTLms⟩)]

/-- The store after appending the 201st message at time 200. -/
def c2StoreAfter : List (Str × RedisRoom) :=
  storeMessageRedis 200 defaultRoom "ann".data "hi".data c2Store

/-- C2 counterexample: room 001 holds 200 stored entries; appending a 201st
message and reading `recent` yields 100 entries, not the 200 the claim
states. -/
theorem c2_claim_counterexample :
    ((alistGet defaultRoom c2Store).map fun rr => rr.entries.length) = some 200 ∧
    (getRecentMessagesRedis 200 defaultRoom c2StoreAfter).length = 100 := by
  constructor
  · decide
  · decide

/-- C2 (amended): `recent(room)` returns at most 100 entries (a fortiori at
most 200) ordered oldest first; appending a 201st message to a room already
holding 200 entries yields a `recent(room)` of length exactly 100 in which
the oldest original entry is absent and the new message is present as the
newest. -/
theorem c2_recent_bounded_ordered :
    (∀ (now : Nat) (roomId : Str) (store : List (Str × RedisRoom)),
        (getRecentMessagesRedis now roomId store).length ≤ 100 ∧
        (getRecentMessagesRedis now roomId store).Pairwise
          (fun a b => a.timestamp ≤ b.timestamp)) ∧
    (getRecentMessagesRedis 200 defaultRoom c2StoreAfter).length = 100 ∧
    (getRecentMessagesRedis 200 defaultRoom c2StoreAfter).getLast? =
      some ⟨"ann".data, "hi".data, 200, defaultRoom⟩ ∧
    (getRecentMessagesRedis 200 defaultRoom c2StoreAfter).contains
      ⟨"u".data, "m".data, 0, defaultRoom⟩ = false := by
  refine ⟨fun now roomId store =>
    ⟨length_getRecentRedis now roomId store, sorted_getRecentRedis now roomId store⟩,
    by decide, by decide, by decide⟩

/-! ## Dispatcher path lemmas (`chat message` handler) -/

theorem plainMessage_effects (now : Nat) (sid : SocketId) (payload : ChatPayload)
    (u : User) (room message : Str) (st : ServerState) :
    (plainMessage now sid payload u room message st).2 =
      [.append room (jsOr payload.username u.username) message now,
       .broadcast room ⟨jsOr payload.username u.username, message, now, room⟩] := rfl

theorem plainMessage_users (now : Nat) (sid : SocketId) (payload : ChatPayload)
    (u : User) (room message : Str) (st : ServerState)
    (hname : payload.username ≠ []) :
    (plainMessage now sid payload u room message st).1.users =
      alistSet sid { u with username := payload.username } st.users := by
  unfold plainMessage
  simp [show payload.username.isEmpty = false by
    simpa [List.isEmpty_iff] using hname]

/-- A non-command chat-message from a non-muted sender reaches the plain
path, acting on a state whose `users` map is unchanged (at most the
sender's expired mute entry is dropped on the way). -/
theorem chatMessage_reaches_plain (now : Nat) (sid : SocketId)
    (payload : ChatPayload) (st : ServerState) (u : User)
    (hu : alistGet sid st.users = some u)
    (hcmd : strStartsWith payload.message serverToken = false)
    (hmute : ∀ t, alistGet sid st.mutedUsers = some t → t ≤ now) :
    ∃ st', handleChatMessage now sid payload st =
        plainMessage now sid payload u (jsOr payload.room u.room) payload.message st' ∧
      st'.users = st.users := by
  have hlogin : strStartsWith payload.message loginToken = false :=
    not_login_of_not_server hcmd
  cases hm : alistGet sid st.mutedUsers with
  | none =>
    refine ⟨st, ?_, rfl⟩
    simp [handleChatMessage, hu, hlogin, hcmd, hm]
  | some t =>
    have ht := hmute t hm
    refine ⟨{ st with mutedUsers := alistRemove sid st.mutedUsers }, ?_, rfl⟩
    simp only [handleChatMessage, hu, hlogin, hcmd, hm, Bool.false_and,
      Bool.false_eq_true, if_false]
    rw [if_neg (by omega)]

/-! ## Claim C3 -/

/-- One guest session, socket 0, in room 001, unmuted, unprivileged. -/
def guestState : ServerState :=
  { initState with users := [(0, ⟨guestName, defaultRoom, false⟩)] }

/-- An admin session ("Al", socket 0) alone in room 001 of the Redis
variant's server. -/
def adminState : ServerState :=
  { initState with
      users := [(0, ⟨"Al".data, defaultRoom, true⟩)],
      admins := [0],
      rooms := [(defaultRoom, [0])] }

/-- C3 counterexample: the session's recorded room is 001, yet a payload
naming room 002 is stored to and broadcast in room 002, not the sender's
current room. -/
theorem c3_claim_counterexample :
    (handleChatMessage 1000 0 ⟨"002".data, [], "hi".data⟩ guestState).2 =
      [.append "002".data guestName "hi".data 1000,
       .broadcast "002".data ⟨guestName, "hi".data, 1000, "002".data⟩] ∧
    ((alistGet 0 guestState.users).map User.room = some defaultRoom) ∧
    (("002".data : Str) == defaultRoom) = false := by decide

/-- C3 (amended): for every chat-message from a non-muted sender whose
payload does not carry the reserved `server!` token, the message is first
appended to the message store and then broadcast, in that order; the room
used for both the append and the broadcast is the payload's `room` field
when non-empty, and only otherwise the sender's current session room. -/
theorem c3_store_then_broadcast (now : Nat) (sid : SocketId)
    (payload : ChatPayload) (st : ServerState) (u : User)
    (hu : alistGet sid st.users = some u)
    (hcmd : strStartsWith payload.message serverToken = false)
    (hmute : ∀ t, alistGet sid st.mutedUsers = some t → t ≤ now) :
    (handleChatMessage now sid payload st).2 =
      [.append (jsOr payload.room u.room) (jsOr payload.username u.username)
         payload.message now,
       .broadcast (jsOr payload.room u.room)
         ⟨jsOr payload.username u.username, payload.message, now,
          jsOr payload.room u.room⟩] := by
  obtain ⟨st', heq, -⟩ := chatMessage_reaches_plain now sid payload st u hu hcmd hmute
  rw [heq, plainMessage_effects]

theorem c3_store_then_broadcast_witness :
    (handleChatMessage 1000 0 ⟨"002".data, [], "hi".data⟩ guestState).2 =
      [.append "002".data guestName "hi".data 1000,
       .broadcast "002".data ⟨guestName, "hi".data, 1000, "002".data⟩] :=
  c3_store_then_broadcast 1000 0 ⟨"002".data, [], "hi".data⟩ guestState
    ⟨guestName, defaultRoom, false⟩ (by decide) (by decide)
    (fun t h => by simp [guestState, initState, alistGet] at h)

/-! ## Claim C4 -/

/-- C4 counterexample: `server!admin!login#u:p#x` starts with the
admin-login token but splits into three fields; a non-muted, unprivileged
sender receives only a private permission-denied notice — the message is
handled as a privileged command attempt, not stored or broadcast as plain
chat. -/
theorem c4_claim_counterexample :
    strStartsWith "server!admin!login#u:p#x".data loginToken = true ∧
    (splitOnChar '#' "server!admin!login#u:p#x".data).length = 3 ∧
    handleChatMessage 1000 0 ⟨[], [], "server!admin!login#u:p#x".data⟩ guestState =
      (guestState, [.privateNotice 0 .permissionDenied]) := by decide

/-- C4 (amended): a chat-message whose payload starts with the admin-login
token but has a '#'-field count other than two falls through to the
privileged-command branch, not to plain-message handling: an unprivileged
sender gets only a private permission-denied notice, and a privileged
sender gets only a private unknown-admin-command notice naming the text
after the reserved token; in both cases the state is unchanged and the
message is neither stored nor broadcast. -/
theorem c4_malformed_login_to_command_path (now : Nat) (sid : SocketId)
    (payload : ChatPayload) (st : ServerState) (u : User)
    (hu : alistGet sid st.users = some u)
    (hpref : strStartsWith payload.message loginToken = true)
    (hparts : (splitOnChar '#' payload.message).length ≠ 2) :
    (st.admins.contains sid = false →
      handleChatMessage now sid payload st =
        (st, [.privateNotice sid .permissionDenied])) ∧
    (st.admins.contains sid = true →
      handleChatMessage now sid payload st =
        (st, [.privateNotice sid (.unknownCommand (payload.message.drop 7))])) := by
  have hsrv : strStartsWith payload.message serverToken = true :=
    strStartsWith_of_append (loginToken_eq_append ▸ hpref)
  have hlen : ((splitOnChar '#' payload.message).length == 2) = false := by
    simpa using hparts
  obtain ⟨rest, hrest⟩ := exists_append_of_strStartsWith hpref
  have hcmd_eq : payload.message.drop 7 = "admin!login#".data ++ rest := by
    rw [hrest]; rfl
  constructor
  · intro hadmin
    have hadmin' : sid ∉ st.admins := by simpa using hadmin
    simp [handleChatMessage, hu, hpref, hlen, hsrv, hadmin']
  · intro hadmin
    have hadmin' : sid ∈ st.admins := by simpa using hadmin
    have h1 : (payload.message.drop 7 == "clear".data) = false := by
      rw [hcmd_eq]; rfl
    have h2 : strStartsWith (payload.message.drop 7) "mute ".data = false := by
      rw [hcmd_eq]; rfl
    have h3 : strStartsWith (payload.message.drop 7) "kick ".data = false := by
      rw [hcmd_eq]; rfl
    have h4 : strStartsWith (payload.message.drop 7) "ban ".data = false := by
      rw [hcmd_eq]; rfl
    have h5 : (payload.message.drop 7 == "list".data) = false := by
      rw [hcmd_eq]; rfl
    have h6 : (payload.message.drop 7 == "help".data) = false := by
      rw [hcmd_eq]; rfl
    simp [handleChatMessage, handleAdminCommand, hu, hpref, hlen, hsrv, hadmin',
      h1, h2, h3, h4, h5, h6]

theorem c4_malformed_login_to_command_path_witness :
    (handleChatMessage 3 0 ⟨[], [], "server!admin!login#a#b".data⟩ guestState =
      (guestState, [.privateNotice 0 .permissionDenied])) ∧
    (handleChatMessage 3 0 ⟨[], [], "server!admin!login#a#b".data⟩ adminState =
      (adminState, [.privateNotice 0 (.unknownCommand "admin!login#a#b".data)])) :=
  ⟨(c4_malformed_login_to_command_path 3 0 ⟨[], [], "server!admin!login#a#b".data⟩
      guestState ⟨guestName, defaultRoom, false⟩ (by decide) (by decide)
      (by decide)).1 (by decide),
   (c4_malformed_login_to_command_path 3 0 ⟨[], [], "server!admin!login#a#b".data⟩
      adminState ⟨"Al".data, defaultRoom, true⟩ (by decide) (by decide)
      (by decide)).2 (by decide)⟩

/-! ## Claim C5 -/

/-- A guest session muted until instant 5000. -/
def mutedGuestState : ServerState :=
  { initState with
      users := [(0, ⟨guestName, defaultRoom, false⟩)],
      mutedUsers := [(0, 5000)] }

/-- An admin session muted until instant 5000, with one stored message in
room 001. -/
def mutedAdminState : ServerState :=
  { initState with
      users := [(0, ⟨"Al".data, defaultRoom, true⟩)],
      admins := [0],
      mutedUsers := [(0, 5000)],
      redisStore := [(defaultRoom, ⟨[⟨"bob".data, "x".data, 10, defaultRoom⟩],
        10 + listTTLms⟩)] }

/-- C5 counterexample: a session muted until 5000 sends `server!clear` at
time 1000; the command still executes — a clear notice is broadcast to the
room and the room's log length drops from 1 to 0, instead of the claimed
private mute notice with everything unchanged. -/
theorem c5_claim_counterexample :
    ((alistGet 0 mutedAdminState.mutedUsers).map (fun t => decide (1000 < t)) =
      some true) ∧
    (getRecentMessagesRedis 1000 defaultRoom mutedAdminState.redisStore).length = 1 ∧
    (handleChatMessage 1000 0 ⟨[], [], "server!clear".data⟩ mutedAdminState).2 =
      [.broadcastNotice defaultRoom (.cleared "Al".data)] ∧
    (getRecentMessagesRedis 1000 defaultRoom
      (handleChatMessage 1000 0 ⟨[], [], "server!clear".data⟩
        mutedAdminState).1.redisStore).length = 0 := by decide

/-- C5 (amended): for every session whose `muteUntil` lies in the future,
handling a chat-message whose payload does not carry the reserved
`server!` token performs no store append and no broadcast, leaves the
entire server state (hence every room's log length and occupant set)
unchanged, and sends only a private notice stating the remaining mute time
in seconds, rounded up. -/
theorem c5_muted_plain_message_dropped (now : Nat) (sid : SocketId)
    (payload : ChatPayload) (st : ServerState) (u : User) (t : Nat)
    (hu : alistGet sid st.users = some u)
    (hcmd : strStartsWith payload.message serverToken = false)
    (hm : alistGet sid st.mutedUsers = some t)
    (hfut : now < t) :
    handleChatMessage now sid payload st =
      (st, [.privateNotice sid (.muted ((t - now + 999) / 1000))]) := by
  have hlogin : strStartsWith payload.message loginToken = false :=
    not_login_of_not_server hcmd
  simp [handleChatMessage, hu, hlogin, hcmd, hm, hfut]

theorem c5_muted_plain_message_dropped_witness :
    handleChatMessage 1000 0 ⟨[], [], "hi".data⟩ mutedGuestState =
      (mutedGuestState, [.privateNotice 0 (.muted 4)]) :=
  c5_muted_plain_message_dropped 1000 0 ⟨[], [], "hi".data⟩ mutedGuestState
    ⟨guestName, defaultRoom, false⟩ 5000 (by decide) (by decide) (by decide)
    (by decide)

/-! ## Claim C6 -/

theorem kick_not_loginToken (target : Str) :
    strStartsWith ("server!kick ".data ++ target) loginToken = false := rfl

theorem kick_serverToken (target : Str) :
    strStartsWith ("server!kick ".data ++ target) serverToken = true := rfl

/-- Two guest sessions in room 001: socket 0 (the sender) and socket 1
("alice", the moderation target). -/
def twoGuestState : ServerState :=
  { initState with
      users := [(0, ⟨guestName, defaultRoom, false⟩),
                (1, ⟨"alice".data, defaultRoom, false⟩)],
      rooms := [(defaultRoom, [0, 1])] }

/-- C6: an unprivileged session sending `server!kick <name>` with a present
target leaves the whole server state (target session, room memberships and
mute table included) unchanged, and emits exactly one effect: a private
permission-denied notice to the sender.  The target receives no notice and
the command text is neither stored nor broadcast. -/
theorem c6_unprivileged_moderation_noop (now : Nat) (sid : SocketId)
    (payload : ChatPayload) (st : ServerState) (u : User) (target : Str)
    (tsid : SocketId) (tu : User)
    (hu : alistGet sid st.users = some u)
    (hmsg : payload.message = "server!kick ".data ++ target)
    (htarget : getUserByUsername target st.users = some (tsid, tu))
    (hadmin : st.admins.contains sid = false) :
    handleChatMessage now sid payload st =
      (st, [.privateNotice sid .permissionDenied]) := by
  have h1 : strStartsWith payload.message loginToken = false := by
    rw [hmsg]; exact kick_not_loginToken target
  have h2 : strStartsWith payload.message serverToken = true := by
    rw [hmsg]; exact kick_serverToken target
  have hadmin' : sid ∉ st.admins := by simpa using hadmin
  simp [handleChatMessage, hu, h1, h2, hadmin']

theorem c6_unprivileged_moderation_noop_witness :
    handleChatMessage 9 0 ⟨[], [], "server!kick alice".data⟩ twoGuestState =
      (twoGuestState, [.privateNotice 0 .permissionDenied]) :=
  c6_unprivileged_moderation_noop 9 0 ⟨[], [], "server!kick alice".data⟩
    twoGuestState ⟨guestName, defaultRoom, false⟩ "alice".data 1
    ⟨"alice".data, defaultRoom, false⟩ (by decide) (by decide) (by decide)
    (by decide)

/-! ## Claim C10 -/

/-- C10 counterexample: a muted session sends a payload carrying username
"Eve"; the handler returns before the rename, so the session keeps its
previous display name "Guest" and nothing is stored or broadcast —
refuting the claim for arbitrary chat-messages. -/
theorem c10_claim_counterexample :
    handleChatMessage 1000 0 ⟨[], "Eve".data, "hi".data⟩ mutedGuestState =
      (mutedGuestState, [.privateNotice 0 (.muted 4)]) ∧
    ((alistGet 0 (handleChatMessage 1000 0 ⟨[], "Eve".data, "hi".data⟩
        mutedGuestState).1.users).map User.username = some guestName) := by decide

/-- C10 (amended): for every chat-message from a non-muted sender whose
payload is not a `server!` command and carries a non-empty username field,
the handler renames the sending session to the supplied name, and both the
stored and the broadcast message are attributed to the supplied name
rather than the session's previous one. -/
theorem c10_username_rename_on_plain_message (now : Nat) (sid : SocketId)
    (payload : ChatPayload) (st : ServerState) (u : User)
    (hu : alistGet sid st.users = some u)
    (hcmd : strStartsWith payload.message serverToken = false)
    (hmute : ∀ t, alistGet sid st.mutedUsers = some t → t ≤ now)
    (hname : payload.username ≠ []) :
    alistGet sid (handleChatMessage now sid payload st).1.users =
      some { u with username := payload.username } ∧
    (handleChatMessage now sid payload st).2 =
      [.append (jsOr payload.room u.room) payload.username payload.message now,
       .broadcast (jsOr payload.room u.room)
         ⟨payload.username, payload.message, now, jsOr payload.room u.room⟩] := by
  obtain ⟨st', heq, husers⟩ :=
    chatMessage_reaches_plain now sid payload st u hu hcmd hmute
  have hjs : jsOr payload.username u.username = payload.username := by
    simp [jsOr, show payload.username.isEmpty = false by
      simpa [List.isEmpty_iff] using hname]
  refine ⟨?_, ?_⟩
  · rw [heq, plainMessage_users _ _ _ _ _ _ _ hname, husers, alistGet_set_self]
  · rw [heq, plainMessage_effects, hjs]

theorem c10_username_rename_on_plain_message_witness :
    alistGet 0 (handleChatMessage 1000 0 ⟨[], "Eve".data, "hi".data⟩
        guestState).1.users = some ⟨"Eve".data, defaultRoom, false⟩ ∧
    (handleChatMessage 1000 0 ⟨[], "Eve".data, "hi".data⟩ guestState).2 =
      [.append defaultRoom "Eve".data "hi".data 1000,
       .broadcast defaultRoom ⟨"Eve".data, "hi".data, 1000, defaultRoom⟩] :=
  c10_username_rename_on_plain_message 1000 0 ⟨[], "Eve".data, "hi".data⟩
    guestState ⟨guestName, defaultRoom, false⟩ (by decide) (by decide)
    (fun t h => by simp [guestState, initState, alistGet] at h) (by decide)

/-! ## Claim C9 -/

/-- C9: starting from keep-alive enabled (any timer state, any stored
messages), issuing the power-off command then the power-on command leaves
the flag enabled with an armed timer; and issuing the power-off command
twice in a row produces exactly one room broadcast (from the first) and
exactly one private already-disabled notice (from the second), the second
command broadcasting nothing. -/
theorem c9_power_toggle (timer : Bool) (ms : List (Str × List P0Entry))
    (room : Str) (now now' : Nat) :
    ((handleServerCommand now' room powerOnCmd
        (handleServerCommand now room powerDownCmd ⟨true, timer, ms⟩).1).1.keepAliveEnabled
        = true ∧
     (handleServerCommand now' room powerOnCmd
        (handleServerCommand now room powerDownCmd ⟨true, timer, ms⟩).1).1.keepAliveTimer
        = true) ∧
    countBroadcasts
      ((handleServerCommand now room powerDownCmd ⟨true, timer, ms⟩).2.1 ++
       (handleServerCommand now' room powerDownCmd
         (handleServerCommand now room powerDownCmd ⟨true, timer, ms⟩).1).2.1) = 1 ∧
    countAlreadyDisabled
      ((handleServerCommand now room powerDownCmd ⟨true, timer, ms⟩).2.1 ++
       (handleServerCommand now' room powerDownCmd
         (handleServerCommand now room powerDownCmd ⟨true, timer, ms⟩).1).2.1) = 1 ∧
    countBroadcasts
      ((handleServerCommand now' room powerDownCmd
         (handleServerCommand now room powerDownCmd ⟨true, timer, ms⟩).1).2.1) = 0 :=
  ⟨⟨rfl, rfl⟩, rfl, rfl, rfl⟩

/-! ## Claim C8 -/

/-- The Bool outcome of the keep-alive interpreter: a message is consumed
as a server command exactly when its lowercasing equals one of the four
fixed command strings — the reserved token is lowercased along with the
rest of the message. -/
theorem handleServerCommand_handled (now : Nat) (room message : Str)
    (st : KAState) :
    (handleServerCommand now room message st).2.2 =
      (toLowerStr message == powerDownCmd || toLowerStr message == powerOnCmd ||
       toLowerStr message == statusCmd || toLowerStr message == helpCmd) := by
  unfold handleServerCommand
  cases h1 : toLowerStr message == powerDownCmd with
  | true =>
    simp only [h1, if_true]
    cases st.keepAliveEnabled <;> simp
  | false =>
    simp only [h1, Bool.false_eq_true, if_false]
    cases h2 : toLowerStr message == powerOnCmd with
    | true =>
      simp only [h2, if_true]
      cases st.keepAliveEnabled <;> simp
    | false =>
      simp only [h2, Bool.false_eq_true, if_false]
      cases h3 : toLowerStr message == statusCmd with
      | true => simp [h3]
      | false =>
        simp only [h3, Bool.false_eq_true, if_false]
        cases h4 : toLowerStr message == helpCmd with
        | true => simp [h4]
        | false => simp [h4]

/-- C8 counterexample: the message `SERVER!STATUS`, whose reserved token
differs in case from the canonical `server!`, is nonetheless consumed as a
command by the keep-alive interpreter (private status reply, handled =
true) — refuting case-sensitive matching of the reserved token. -/
theorem c8_claim_counterexample :
    (handleServerCommand 0 defaultRoom "SERVER!STATUS".data
      ⟨true, true, []⟩).2.2 = true ∧
    (handleServerCommand 0 defaultRoom "SERVER!STATUS".data ⟨true, true, []⟩).2.1 =
      [.toSender (.statusNotice true)] := by decide

/-- C8 (amended): in the keep-alive variant, command matching lowercases
the whole message — reserved token and power/status/help literal alike —
so it is case-insensitive end to end; in the Redis/admin variant both
the reserved token and the moderation literals match case-sensitively:
`server!CLEAR` from an admin is an unknown command, and `SERVER!clear`
is not treated as a command at all but stored and broadcast as plain
chat. -/
theorem c8_case_sensitivity :
    (∀ (now : Nat) (room message : Str) (st : KAState),
        (handleServerCommand now room message st).2.2 = true ↔
          (toLowerStr message = powerDownCmd ∨ toLowerStr message = powerOnCmd ∨
           toLowerStr message = statusCmd ∨ toLowerStr message = helpCmd)) ∧
    (handleChatMessage 7 0 ⟨[], [], "server!CLEAR".data⟩ adminState).2 =
      [.privateNotice 0 (.unknownCommand "CLEAR".data)] ∧
    (handleChatMessage 7 0 ⟨[], [], "SERVER!clear".data⟩ adminState).2 =
      [.append defaultRoom "Al".data "SERVER!clear".data 7,
       .broadcast defaultRoom ⟨"Al".data, "SERVER!clear".data, 7, defaultRoom⟩] := by
  refine ⟨fun now room message st => ?_, by decide, by decide⟩
  rw [handleServerCommand_handled]
  simp [or_assoc]

/-! ## Claim C1: the room-membership invariant -/

/-- Every registered session records a non-empty room string (the handlers
only ever write `"001"` or a three-character formatted room id). -/
def UsersWf (st : ServerState) : Prop :=
  ∀ s u, alistGet s st.users = some u → u.room ≠ []

/-- Every membership set present in the room index is non-empty,
duplicate-free, and each member is a registered session recording exactly
that room. -/
def RoomsWf (st : ServerState) : Prop :=
  ∀ r l, alistGet r st.rooms = some l →
    l ≠ [] ∧ l.Nodup ∧
    ∀ s, s ∈ l → ∃ u, alistGet s st.users = some u ∧ u.room = r

def PresenceInv (st : ServerState) : Prop := UsersWf st ∧ RoomsWf st

theorem formatRoom_ne_nil (n : Nat) : formatRoom n ≠ [] := by
  unfold formatRoom
  intro h
  have := congrArg List.length h
  simp only [List.length_append, List.length_replicate, List.length_nil] at this
  omega

/-- Members of the original index survive with their user entries intact
after the leaving session is dropped from its old room: they are all
distinct from the leaver. -/
theorem roomsWf_dropFromRoom {st : ServerState} {sid : SocketId} {u : User}
    (hR : RoomsWf st) (hu : alistGet sid st.users = some u) :
    ∀ r l, alistGet r (dropFromRoom sid u.room st.rooms) = some l →
      l ≠ [] ∧ l.Nodup ∧ ∀ s, s ∈ l → s ≠ sid ∧
        ∃ u', alistGet s st.users = some u' ∧ u'.room = r := by
  intro r l h
  by_cases hr : r = u.room
  · subst hr
    obtain ⟨l₀, hl₀, rfl, hne⟩ := dropFromRoom_get_self h
    obtain ⟨-, hnd, hmem⟩ := hR _ _ hl₀
    refine ⟨hne, hnd.erase sid, fun s hs => ?_⟩
    have hs' := (List.Nodup.mem_erase_iff hnd).mp hs
    exact ⟨hs'.1, hmem s hs'.2⟩
  · rw [dropFromRoom_get_ne hr] at h
    obtain ⟨hne, hnd, hmem⟩ := hR _ _ h
    refine ⟨hne, hnd, fun s hs => ?_⟩
    obtain ⟨u', hu', hroom⟩ := hmem s hs
    refine ⟨fun hssid => ?_, u', hu', hroom⟩
    subst hssid
    rw [hu] at hu'
    cases hu'
    exact hr hroom.symm

/-- Members of an untouched index all differ from a socket id that has no
user entry. -/
theorem roomsWf_fresh {st : ServerState} {sid : SocketId}
    (hR : RoomsWf st) (hfresh : alistGet sid st.users = none) :
    ∀ r l, alistGet r st.rooms = some l →
      l ≠ [] ∧ l.Nodup ∧ ∀ s, s ∈ l → s ≠ sid ∧
        ∃ u', alistGet s st.users = some u' ∧ u'.room = r := by
  intro r l h
  obtain ⟨hne, hnd, hmem⟩ := hR _ _ h
  refine ⟨hne, hnd, fun s hs => ?_⟩
  obtain ⟨u', hu', hroom⟩ := hmem s hs
  refine ⟨fun hssid => ?_, u', hu', hroom⟩
  subst hssid
  rw [hfresh] at hu'
  cases hu'

/-- Core step: adding `sid` to room `fR` (on top of a base index whose
members are all ≠ `sid` and correctly registered) and pointing `sid`'s
user entry at `fR` re-establishes the invariant. -/
theorem presenceInv_addToRoom (st : ServerState) (sid : SocketId)
    (fR : Str) (u' : User) (rooms₀ : List (Str × List SocketId))
    (hfr : u'.room = fR) (hfrne : fR ≠ [])
    (hrooms₀ : ∀ r l, alistGet r rooms₀ = some l →
        l ≠ [] ∧ l.Nodup ∧ ∀ s, s ∈ l → s ≠ sid ∧
          ∃ u, alistGet s st.users = some u ∧ u.room = r)
    (hU : UsersWf st) :
    PresenceInv { st with
        rooms := alistSet fR (setAdd sid ((alistGet fR rooms₀).getD [])) rooms₀,
        users := alistSet sid u' st.users } := by
  constructor
  · intro s us hs
    by_cases hssid : s = sid
    · subst hssid
      rw [alistGet_set_self] at hs
      cases hs
      exact hfr ▸ hfrne
    · rw [alistGet_set_ne hssid] at hs
      exact hU s us hs
  · intro r l h
    by_cases hr : r = fR
    · rw [hr, alistGet_set_self] at h
      cases h
      have hndold : ((alistGet fR rooms₀).getD []).Nodup := by
        cases hg : alistGet fR rooms₀ with
        | none => simp
        | some l₀ => simpa using (hrooms₀ _ _ hg).2.1
      refine ⟨setAdd_ne_nil _ _, nodup_setAdd hndold, fun s hs => ?_⟩
      rcases mem_setAdd.mp hs with rfl | hs'
      · exact ⟨u', alistGet_set_self _ _ _, hfr.trans hr.symm⟩
      · cases hg : alistGet fR rooms₀ with
        | none => rw [hg] at hs'; cases hs'
        | some l₀ =>
          rw [hg] at hs'
          obtain ⟨hssid, uu, huu, hroom⟩ := (hrooms₀ _ _ hg).2.2 s (by simpa using hs')
          exact ⟨uu, by rw [alistGet_set_ne hssid]; exact huu,
            hroom.trans hr.symm⟩
    · rw [alistGet_set_ne hr] at h
      obtain ⟨hne, hnd, hmem⟩ := hrooms₀ _ _ h
      refine ⟨hne, hnd, fun s hs => ?_⟩
      obtain ⟨hssid, uu, huu, hroom⟩ := hmem s hs
      exact ⟨uu, by rw [alistGet_set_ne hssid]; exact huu, hroom⟩

theorem presenceInv_connect (now : Nat) (sid : SocketId) (st : ServerState)
    (hInv : PresenceInv st) (hfresh : alistGet sid st.users = none) :
    PresenceInv (handleConnect now sid st).1 := by
  obtain ⟨hU, hR⟩ := hInv
  exact presenceInv_addToRoom st sid defaultRoom ⟨guestName, defaultRoom, false⟩
    st.rooms rfl (by decide) (roomsWf_fresh hR hfresh) hU

theorem presenceInv_join (now : Nat) (sid : SocketId) (roomId : Str)
    (st : ServerState) (hInv : PresenceInv st) :
    PresenceInv (handleJoinRoom now sid roomId st).1 := by
  obtain ⟨hU, hR⟩ := hInv
  unfold handleJoinRoom
  cases hval : isThreeDigits roomId with
  | false => simpa [hval] using ⟨hU, hR⟩
  | true =>
    simp only [hval, Bool.not_true, Bool.false_eq_true, if_false]
    by_cases hrange : parseDigits roomId < 1 ∨ 100 < parseDigits roomId
    · rw [if_pos hrange]
      exact ⟨hU, hR⟩
    · rw [if_neg hrange]
      cases hu : alistGet sid st.users with
      | none =>
        simp only [hu, Bool.false_eq_true, if_false]
        exact presenceInv_addToRoom st sid (formatRoom (parseDigits roomId))
          ⟨guestName, formatRoom (parseDigits roomId), false⟩ st.rooms rfl
          (formatRoom_ne_nil _) (roomsWf_fresh hR hu) hU
      | some u =>
        by_cases hsame : u.room = formatRoom (parseDigits roomId)
        · simpa [hu, hsame] using ⟨hU, hR⟩
        · have hbe : (u.room == formatRoom (parseDigits roomId)) = false := by
            simpa using hsame
          have hre : u.room.isEmpty = false := by
            simpa [List.isEmpty_iff] using hU sid u hu
          simp only [hu, hbe, Bool.false_eq_true, if_false, hre, Bool.not_false,
            if_true]
          exact presenceInv_addToRoom st sid (formatRoom (parseDigits roomId))
            { u with room := formatRoom (parseDigits roomId) }
            (dropFromRoom sid u.room st.rooms) rfl (formatRoom_ne_nil _)
            (roomsWf_dropFromRoom hR hu) hU

theorem presenceInv_leave (sid : SocketId) (roomId : Str) (st : ServerState)
    (hInv : PresenceInv st) :
    PresenceInv (handleLeaveRoom sid roomId st).1 := by
  obtain ⟨hU, hR⟩ := hInv
  unfold handleLeaveRoom
  cases hu : alistGet sid st.users with
  | none => exact ⟨hU, hR⟩
  | some u =>
    by_cases hsame : u.room = roomId
    · have hbe : (u.room == roomId) = true := by simpa using hsame
      simp only [hbe, if_true]
      refine ⟨hU, fun r l h => ?_⟩
      subst hsame
      obtain ⟨hne, hnd, hmem⟩ := roomsWf_dropFromRoom hR hu r l h
      exact ⟨hne, hnd, fun s hs => (hmem s hs).2⟩
    · have hbe : (u.room == roomId) = false := by simpa using hsame
      simp only [hbe, Bool.false_eq_true, if_false]
      exact ⟨hU, hR⟩

theorem presenceInv_disconnect (sid : SocketId) (st : ServerState)
    (hInv : PresenceInv st) :
    PresenceInv (handleDisconnect sid st).1 := by
  obtain ⟨hU, hR⟩ := hInv
  unfold handleDisconnect
  cases hu : alistGet sid st.users with
  | none => exact ⟨hU, hR⟩
  | some u =>
    constructor
    · intro s us hs
      by_cases hssid : s = sid
      · subst hssid
        rw [alistGet_remove_self] at hs
        cases hs
      · rw [alistGet_remove_ne hssid] at hs
        exact hU s us hs
    · intro r l h
      obtain ⟨hne, hnd, hmem⟩ := roomsWf_dropFromRoom hR hu r l h
      refine ⟨hne, hnd, fun s hs => ?_⟩
      obtain ⟨hssid, uu, huu, hroom⟩ := hmem s hs
      exact ⟨uu, by rw [alistGet_remove_ne hssid]; exact huu, hroom⟩

theorem presenceInv_step (e : SEvent) (st : ServerState)
    (hInv : PresenceInv st)
    (hwf : (match e with
            | .connect _ sid => (alistGet sid st.users).isNone
            | _ => true) = true) :
    PresenceInv (stepEvent e st) := by
  cases e with
  | connect now sid =>
    exact presenceInv_connect now sid st hInv (by simpa using hwf)
  | joinRoom now sid r => exact presenceInv_join now sid r st hInv
  | leaveRoom sid r => exact presenceInv_leave sid r st hInv
  | disconnect sid => exact presenceInv_disconnect sid st hInv

theorem presenceInv_run (evs : List SEvent) (st : ServerState)
    (hInv : PresenceInv st) (hwf : wfEvents st evs = true) :
    PresenceInv (runEvents st evs) := by
  induction evs generalizing st with
  | nil => exact hInv
  | cons e es ih =>
    cases e with
    | connect now sid =>
      rw [show wfEvents st (SEvent.connect now sid :: es) =
            ((alistGet sid st.users).isNone &&
              wfEvents (stepEvent (SEvent.connect now sid) st) es) from rfl,
          Bool.and_eq_true] at hwf
      exact ih _ (presenceInv_step _ st hInv hwf.1) hwf.2
    | joinRoom now sid r =>
      rw [show wfEvents st (SEvent.joinRoom now sid r :: es) =
            (true && wfEvents (stepEvent (SEvent.joinRoom now sid r) st) es) from rfl,
          Bool.and_eq_true] at hwf
      exact ih _ (presenceInv_step _ st hInv rfl) hwf.2
    | leaveRoom sid r =>
      rw [show wfEvents st (SEvent.leaveRoom sid r :: es) =
            (true && wfEvents (stepEvent (SEvent.leaveRoom sid r) st) es) from rfl,
          Bool.and_eq_true] at hwf
      exact ih _ (presenceInv_step _ st hInv rfl) hwf.2
    | disconnect sid =>
      rw [show wfEvents st (SEvent.disconnect sid :: es) =
            (true && wfEvents (stepEvent (SEvent.disconnect sid) st) es) from rfl,
          Bool.and_eq_true] at hwf
      exact ih _ (presenceInv_step _ st hInv rfl) hwf.2

theorem presenceInv_init : PresenceInv initState := by
  constructor
  · intro s u hs; cases hs
  · intro r l h; cases h

/-- C1 counterexample: after `connect 0` followed by `leave-room "001"`
(a well-formed sequence), session 0 is still connected and records room
001, yet room 001 has no membership set at all — its id is in no room's
membership set, refuting the claimed invariant for leave-room. -/
theorem c1_claim_counterexample :
    wfEvents initState [SEvent.connect 0 0, SEvent.leaveRoom 0 defaultRoom] = true ∧
    alistGet 0 (runEvents initState
      [SEvent.connect 0 0, SEvent.leaveRoom 0 defaultRoom]).users =
      some ⟨guestName, defaultRoom, false⟩ ∧
    alistGet defaultRoom (runEvents initState
      [SEvent.connect 0 0, SEvent.leaveRoom 0 defaultRoom]).rooms = none := by
  decide

/-- C1 (amended): for every well-formed sequence of connect, join-room,
leave-room and disconnect events, every membership set present in the room
index is non-empty (sets are removed when emptied), each member of a room's
set is a connected session whose recorded room is that room, and no session
id appears in two different rooms' sets.  The converse direction of the
claim — that a connected session's recorded room always contains its id —
fails after a leave-room (see the counterexample): leave-room removes the
id from the set but leaves the session's recorded room unchanged. -/
theorem c1_membership_invariant (evs : List SEvent)
    (hwf : wfEvents initState evs = true) :
    (∀ r l, alistGet r (runEvents initState evs).rooms = some l → l ≠ []) ∧
    (∀ r l s, alistGet r (runEvents initState evs).rooms = some l → s ∈ l →
        ∃ u, alistGet s (runEvents initState evs).users = some u ∧ u.room = r) ∧
    (∀ r r' l l' s, alistGet r (runEvents initState evs).rooms = some l →
        alistGet r' (runEvents initState evs).rooms = some l' →
        s ∈ l → s ∈ l' → r = r') := by
  obtain ⟨-, hR⟩ := presenceInv_run evs initState presenceInv_init hwf
  refine ⟨fun r l h => (hR r l h).1, fun r l s h hs => (hR r l h).2.2 s hs, ?_⟩
  intro r r' l l' s h h' hs hs'
  obtain ⟨u, hu, hroom⟩ := (hR r l h).2.2 s hs
  obtain ⟨u', hu', hroom'⟩ := (hR r' l' h').2.2 s hs'
  rw [hu] at hu'
  cases hu'
  rw [← hroom, ← hroom']

theorem c1_membership_invariant_witness :
    wfEvents initState
      [SEvent.connect 0 0, SEvent.connect 0 1,
       SEvent.joinRoom 5 0 "002".data, SEvent.disconnect 1] = true ∧
    (∀ r l, alistGet r (runEvents initState
        [SEvent.connect 0 0, SEvent.connect 0 1,
         SEvent.joinRoom 5 0 "002".data, SEvent.disconnect 1]).rooms = some l →
        l ≠ []) ∧
    (∀ r l s, alistGet r (runEvents initState
        [SEvent.connect 0 0, SEvent.connect 0 1,
         SEvent.joinRoom 5 0 "002".data, SEvent.disconnect 1]).rooms = some l →
        s ∈ l →
        ∃ u, alistGet s (runEvents initState
          [SEvent.connect 0 0, SEvent.connect 0 1,
           SEvent.joinRoom 5 0 "002".data, SEvent.disconnect 1]).users = some u ∧
          u.room = r) ∧
    (∀ r r' l l' s, alistGet r (runEvents initState
        [SEvent.connect 0 0, SEvent.connect 0 1,
         SEvent.joinRoom 5 0 "002".data, SEvent.disconnect 1]).rooms = some l →
        alistGet r' (runEvents initState
          [SEvent.connect 0 0, SEvent.connect 0 1,
           SEvent.joinRoom 5 0 "002".data, SEvent.disconnect 1]).rooms = some l' →
        s ∈ l → s ∈ l' → r = r') :=
  ⟨by decide,
   (c1_membership_invariant
     [SEvent.connect 0 0, SEvent.connect 0 1,
      SEvent.joinRoom 5 0 "002".data, SEvent.disconnect 1] (by decide)).1,
   (c1_membership_invariant
     [SEvent.connect 0 0, SEvent.connect 0 1,
      SEvent.joinRoom 5 0 "002".data, SEvent.disconnect 1] (by decide)).2.1,
   (c1_membership_invariant
     [SEvent.connect 0 0, SEvent.connect 0 1,
      SEvent.joinRoom 5 0 "002".data, SEvent.disconnect 1] (by decide)).2.2⟩

end BasicChat
